import Mathlib

/-!
Verification development for the NoodleML neural-network core
(`src/NoodleML/Model/NeuralNetwork.js`: classes `NeuralNetwork`, `Neuron`,
`Perceptron`; `src/unnamed/part_001`: the `ActivationFunctions` catalog).

Modelling conventions (shallow embedding of the JavaScript source):
- A JavaScript number (possibly `NaN`) or the value `undefined` as it occurs
  in arithmetic is modelled by `JNum := Option ℚ`; `none` stands for
  `NaN`/`undefined`.  JavaScript arithmetic on `NaN`/`undefined` yields `NaN`,
  which the lifted operations `jadd`/`jsub`/`jmul` mirror by propagating
  `none`.  Comparisons involving `NaN` are `false` in JavaScript; the lifted
  activation functions mirror this case by case.
- Out-of-range array reads (`a[i]` with `i ≥ a.length`) return `undefined`
  in JavaScript, modelled by `jget` returning `none`.
- Methods that can `throw` are modelled in `Except String`; methods that
  mutate `this` return the new object state.
- `Math.random()` draws are modelled by an explicit stream `rng : ℕ → ℚ`
  with a running counter (the value `Math.random()*2-1` itself is
  irrelevant to every claim, so the stream is unconstrained).
- Activation functions are arbitrary `{f, df}` objects in the source;
  transcendental catalog entries (sigmoid, tanh, elu, softplus) are not
  representable over ℚ and enter the model only as parameters.  The
  ℚ-representable entries used by the claims (`binary`, `linearBounded`)
  are embedded from `src/unnamed/part_001`.
-/

/-- A JavaScript numeric value: `some q` is an ordinary (here: rational)
number, `none` is `NaN` (or `undefined` appearing in arithmetic). -/
abbrev JNum := Option ℚ

/-- JavaScript `+` on numbers: `NaN` propagates. -/
def jadd : JNum → JNum → JNum
  | some a, some b => some (a + b)
  | _, _ => none

/-- JavaScript `-` on numbers: `NaN` propagates. -/
def jsub : JNum → JNum → JNum
  | some a, some b => some (a - b)
  | _, _ => none

/-- JavaScript `*` on numbers: `NaN` propagates. -/
def jmul : JNum → JNum → JNum
  | some a, some b => some (a * b)
  | _, _ => none

/-- JavaScript array read `l[i]`: `undefined` (here `none`) when out of range. -/
def jget (l : List JNum) (i : Nat) : JNum := l.getD i none

/-- `Array.prototype.map((x, i) => F i x)` starting at index `i`. -/
def mapIdx' {α β : Type} (F : Nat → α → β) : Nat → List α → List β
  | _, [] => []
  | i, a :: as => F i a :: mapIdx' F (i + 1) as

/-- `Array.prototype.reduce((acc, x, i) => F acc i x, b)` starting at index `i`. -/
def foldlIdx' {α β : Type} (F : β → Nat → α → β) : β → Nat → List α → β
  | b, _, [] => b
  | b, i, a :: as => foldlIdx' F (F b i a) (i + 1) as

/-- An activation-function object `{name, f, df}` as stored on neurons
(`src/unnamed/part_001`).  `f`/`df` act on JavaScript numbers. -/
structure JAct where
  aname : String
  f : JNum → JNum
  df : JNum → JNum

/-- `ActivationFunctions.binary`: `f: x => (x >= 0.5 ? 1 : 0)`, `df: x => 0`.
`NaN >= 0.5` is `false` in JavaScript, so `f NaN = 0`. -/
def ActivationFunctions.binary : JAct where
  aname := "binary [0,1]"
  f := fun x => match x with
    | some q => if (1 : ℚ)/2 ≤ q then some 1 else some 0
    | none => some 0
  df := fun _ => some 0

/-- `ActivationFunctions.linearBounded`: `f: x => Math.max(-1, Math.min(1, x))`,
`df: x => (x < -1 || x > 1) ? 0 : 1`.  `Math.max`/`Math.min` propagate `NaN`;
both comparisons in `df` are `false` on `NaN`, so `df NaN = 1`. -/
def ActivationFunctions.linearBounded : JAct where
  aname := "linear[-1,1]"
  f := fun x => match x with
    | some q => some (max (-1) (min 1 q))
    | none => none
  df := fun x => match x with
    | some q => if q < -1 ∨ 1 < q then some 0 else some 1
    | none => some 1

/-- The `Perceptron` class state (`NeuralNetwork.js` lines 613-796).
The diagnostic `name` label is omitted: no modelled operation reads it. -/
structure Perceptron where
  weights : List JNum
  bias : JNum
  learningRate : JNum
  activationThreshold : JNum
  disableThreshold : Bool

/-- `Perceptron.activate(x)`: bounded-linear if the threshold is disabled,
otherwise the binary step. -/
def Perceptron.activate (p : Perceptron) (x : JNum) : JNum :=
  if p.disableThreshold then ActivationFunctions.linearBounded.f x
  else ActivationFunctions.binary.f x

/-- The sum loop of `Perceptron.predict`:
`let sum = this.bias; for (let i = 0; i < input.length; i++) sum += this.weights[i] * input[i]`.
Note the loop runs over `input.length`, reading `this.weights[i]`
(`undefined`, hence `NaN`, once `i ≥ weights.length`). -/
def Perceptron.rawSum (p : Perceptron) (input : List JNum) : JNum :=
  foldlIdx' (fun s i x => jadd s (jmul (jget p.weights i) x)) p.bias 0 input

/-- `Perceptron.predict(input)`. -/
def Perceptron.predict (p : Perceptron) (input : List JNum) : JNum :=
  p.activate (p.rawSum input)

/-- The weight-update loop of `Perceptron.train`:
`for (let i = 0; i < input.length; i++) this.weights[i] += this.learningRate * error * input[i]`.
The loop runs over `input.length`; when `i ≥ weights.length` the JavaScript
assignment reads `undefined` and extends the array, appending
`undefined + learningRate*error*input[i] = NaN`. -/
def trainWeights (lr error : JNum) : List JNum → List JNum → List JNum
  | ws, [] => ws
  | w :: ws, x :: xs => jadd w (jmul (jmul lr error) x) :: trainWeights lr error ws xs
  | [], x :: xs => jadd none (jmul (jmul lr error) x) :: trainWeights lr error [] xs

/-- `Perceptron.train(input, target)`: computes the prediction and the error
once, then updates the weights and the bias. -/
def Perceptron.train (p : Perceptron) (input : List JNum) (target : JNum) : Perceptron :=
  let prediction := p.predict input
  let error := jsub target prediction
  { p with
    weights := trainWeights p.learningRate error p.weights input,
    bias := jadd p.bias (jmul p.learningRate error) }

/-- A connection `{index, weight}` of a `Neuron` (`NeuralNetwork.js`
lines 477-493; the specification calls `index` "sourceIndex"). -/
structure Conn where
  index : Nat
  weight : JNum
  deriving DecidableEq

/-- The `Neuron` class state (`NeuralNetwork.js` lines 468-573).  A `Neuron`
extends `Perceptron` but overrides `getWeights`/`setWeights` to operate on
its connection list; of the inherited storage only `bias` and
`learningRate` are ever read on a `Neuron`, so only those are kept (the
shadowed `Perceptron.weights` array and the diagnostic `name` are dead
storage for every modelled operation). -/
structure Neuron where
  connections : List Conn
  bias : JNum
  learningRate : JNum
  activation : JAct

/-- `Neuron.getWeights()`: the connection weights in connection-list order. -/
def Neuron.getWeights (n : Neuron) : List JNum :=
  n.connections.map (fun c => c.weight)

/-- `Perceptron.getBias()` as inherited by `Neuron`. -/
def Neuron.getBias (n : Neuron) : JNum := n.bias

/-- `Perceptron.setBias(bias)` as inherited by `Neuron`. -/
def Neuron.setBias (n : Neuron) (b : JNum) : Neuron := { n with bias := b }

/-- `Neuron.setWeights(weights)` (`NeuralNetwork.js` lines 557-564): throws
when the length differs from the connection count — before touching any
connection — and otherwise overwrites connection weights positionally.
The first component is the state of `this` after the call. -/
def Neuron.setWeights (n : Neuron) (ws : List JNum) : Neuron × Except String Unit :=
  if ws.length ≠ n.connections.length then
    (n, .error "Le nombre de poids ne correspond pas au nombre de connexions.")
  else
    ({ n with connections := List.zipWith (fun c w => { c with weight := w }) n.connections ws },
     .ok ())

/-- `Neuron.activate(sum)`: delegates to the stored activation object. -/
def Neuron.activate (n : Neuron) (sum : JNum) : JNum := n.activation.f sum

/-- The connection loop of `Neuron.predict` (`NeuralNetwork.js` lines
504-513): throws on the first connection whose `index` is out of range of
the input vector. -/
def predictSum (inputs : List JNum) : List Conn → JNum → Except String JNum
  | [], s => .ok s
  | c :: cs, s =>
      if inputs.length ≤ c.index then
        .error ("Index " ++ toString c.index ++ " hors des bornes")
      else predictSum inputs cs (jadd s (jmul (jget inputs c.index) c.weight))

/-- `Neuron.predict(inputs)`. -/
def Neuron.predict (n : Neuron) (inputs : List JNum) : Except String JNum :=
  match predictSum inputs n.connections n.bias with
  | .error e => .error e
  | .ok s => .ok (n.activate s)

/-- The `Neuron` constructor on the dense path (`connections = []`,
`NeuralNetwork.js` lines 479-496): draws `inputSize` random connection
weights, then `super(weights.length, learningRate)` draws `inputSize`
further (shadowed, unused) weights and the random bias.  Returns the
neuron and the advanced random-stream counter. -/
def Neuron.create (inputSize : Nat) (lr : JNum) (act : JAct) (rng : ℕ → ℚ) (ctr : ℕ) :
    Neuron × ℕ :=
  let ws := (List.range inputSize).map (fun i => some (rng (ctr + i)))
  let ctr2 := ctr + inputSize + inputSize
  ({ connections := mapIdx' (fun i w => { index := i, weight := w }) 0 ws,
     bias := some (rng ctr2),
     learningRate := lr,
     activation := act }, ctr2 + 1)

/-- A JavaScript value as it may occur in a `layerSizes` array:
a finite number, `NaN`, or a non-number. -/
inductive JVal where
  | num (q : ℚ)
  | nan
  | str (s : String)
  | bool (b : Bool)
  | null
  | undef
  deriving DecidableEq

/-- The element test of the constructor validation,
`typeof size !== 'number' || size <= 0`: non-numbers fail it, finite
numbers fail it iff `≤ 0`, and `NaN` passes it (`NaN <= 0` is `false`). -/
def badSize : JVal → Bool
  | .num q => decide (q ≤ 0)
  | .nan => false
  | _ => true

/-- Number of iterations of `for (let i = 0; i < count; i++)` when `count`
is the JavaScript value v: `⌈q⌉` for a positive number `q` (computed as
`-⌊-q⌋` over `Rat.floor`), else `0` (`i < NaN` is `false`; non-numbers do
not occur after validation). -/
def jsIter : JVal → Nat
  | .num q => (-(Rat.floor (-q))).toNat
  | _ => 0

/-- `Array.from({length: v}).length`, i.e. `ToLength(v)`: `⌊q⌋` clamped to
ℕ for a number `q`, else `0`. -/
def jsLen : JVal → Nat
  | .num q => (Rat.floor q).toNat
  | _ => 0

/-- The `NeuralNetwork` class state (`NeuralNetwork.js` lines 33-433).
`epoch` is `undefined` (`none`) until a loader sets it.  Diagnostic
neuron names are omitted (no modelled operation reads them). -/
structure NeuralNetwork where
  layers : List (List Neuron)
  learningRate : JNum
  activation : JAct
  layerSizes : List JVal
  inputNames : List String
  outputNames : List String
  epoch : JNum

/-- The inner loop of the constructor: builds `count` dense neurons of
`inputSize` connections, threading the random-stream counter. -/
def buildLayer (inputSize : Nat) (lr : JNum) (act : JAct) (rng : ℕ → ℚ) :
    Nat → ℕ → List Neuron × ℕ
  | 0, ctr => ([], ctr)
  | c + 1, ctr =>
      let r := Neuron.create inputSize lr act rng ctr
      let rest := buildLayer inputSize lr act rng c r.2
      (r.1 :: rest.1, rest.2)

/-- The outer loop of the constructor over `(layerSizes[l-1], layerSizes[l])`
pairs for `l = 1 .. layerSizes.length - 1`. -/
def buildLayers (lr : JNum) (act : JAct) (rng : ℕ → ℚ) :
    List (JVal × JVal) → ℕ → List (List Neuron) × ℕ
  | [], ctr => ([], ctr)
  | (prev, cur) :: rest, ctr =>
      let r := buildLayer (jsLen prev) lr act rng (jsIter cur) ctr
      let rs := buildLayers lr act rng rest r.2
      (r.1 :: rs.1, rs.2)

/-- The `NeuralNetwork` constructor (`NeuralNetwork.js` lines 38-71):
validates `layerSizes` (an array of length ≥ 2 whose elements are numbers
`> 0`; note the source does not check integrality, and `NaN` passes the
`size <= 0` test), then builds the dense layers. -/
def NeuralNetwork.create (layerSizes : List JVal)
    (inputNames outputNames : Option (List String)) (learningRate : JNum)
    (activation : JAct) (rng : ℕ → ℚ) (ctr : ℕ) :
    Except String (NeuralNetwork × ℕ) :=
  if layerSizes.length < 2 then
    .error "layerSizes doit être un tableau avec au moins deux éléments."
  else if layerSizes.any badSize then
    .error "Chaque élément de layerSizes doit être un nombre entier positif."
  else
    let r := buildLayers learningRate activation rng (layerSizes.zip layerSizes.tail) ctr
    .ok ({ layers := r.1,
           learningRate := learningRate,
           activation := activation,
           layerSizes := layerSizes,
           inputNames := inputNames.getD [],
           outputNames := outputNames.getD [],
           epoch := none }, r.2)

/-- One layer of `NeuralNetwork.predict`: `layer.map(n => n.predict(a))`,
with the first thrown error propagating (later neurons not evaluated). -/
def predictNeurons (a : List JNum) : List Neuron → Except String (List JNum)
  | [] => .ok []
  | n :: rest =>
      match n.predict a with
      | .error e => .error e
      | .ok y =>
          match predictNeurons a rest with
          | .error e => .error e
          | .ok ys => .ok (y :: ys)

/-- The layer loop of `NeuralNetwork.predict`. -/
def predictLayers : List (List Neuron) → List JNum → Except String (List JNum)
  | [], a => .ok a
  | layer :: rest, a =>
      match predictNeurons a layer with
      | .error e => .error e
      | .ok a' => predictLayers rest a'

/-- `NeuralNetwork.predict(input)` (`NeuralNetwork.js` lines 91-97). -/
def NeuralNetwork.predict (net : NeuralNetwork) (input : List JNum) :
    Except String (List JNum) :=
  predictLayers net.layers input

/-- The per-neuron sum of the forward pass inside `backpropagate`
(`NeuralNetwork.js` lines 125-128):
`neuron.getWeights().reduce((s, w, i) => s + w * activations.at(-1)[i], 0) + neuron.getBias()`.
Note this reads the previous activations by weight-list position `i`, not
by connection `index`, and performs no range check (an out-of-range read
yields `undefined`, hence `NaN`). -/
def neuronSum (n : Neuron) (aPrev : List JNum) : JNum :=
  jadd (foldlIdx' (fun s i w => jadd s (jmul w (jget aPrev i))) (some 0) 0 n.getWeights)
    n.getBias

/-- One layer of the forward pass: the `z` vector and the `a` vector. -/
def layerZA (layer : List Neuron) (aPrev : List JNum) : List JNum × List JNum :=
  (layer.map (fun n => neuronSum n aPrev),
   layer.map (fun n => n.activate (neuronSum n aPrev)))

/-- The forward pass of `backpropagate` (`NeuralNetwork.js` lines 116-136):
returns (`zs`, `activations`), the latter with the input prepended. -/
def forward : List (List Neuron) → List JNum → List (List JNum) × List (List JNum)
  | [], a => ([], [a])
  | layer :: rest, a =>
      let za := layerZA layer a
      let r := forward rest za.2
      (za.1 :: r.1, a :: r.2)

/-- The output-error loop (`NeuralNetwork.js` lines 139-145):
`activations.at(-1).map((a, i) => (a - target[i]) * outputLayer[i].activation.df(outputZ[i]))`.
When `this.layers` is empty, `outputLayer` and `outputZ` are `undefined`
and the first indexing of them throws a `TypeError`; likewise
`outputLayer[i]` is `undefined` past the end.  `target[i]` merely yields
`undefined` (`NaN`) when the target is short. -/
def outputDeltas (oLayer? : Option (List Neuron)) (oZ target : List JNum) :
    Nat → List JNum → Except String (List JNum)
  | _, [] => .ok []
  | i, a :: as =>
      match oLayer? with
      | none => .error "TypeError"
      | some oLayer =>
          match oLayer.get? i with
          | none => .error "TypeError"
          | some nrn =>
              match outputDeltas oLayer? oZ target (i + 1) as with
              | .error e => .error e
              | .ok rest =>
                  .ok (jmul (jsub a (jget target i)) (nrn.activation.df (jget oZ i)) :: rest)

/-- `updateNeuron` (`NeuralNetwork.js` lines 154-165): for neuron `j` with
delta `d`, `newWeights = getWeights().map((w, k) => w - learningRate * d * prevA[k])`,
`newBias = getBias() - learningRate * d`, applied through
`setWeights`/`setBias`. -/
def updateNeuron (lr d : JNum) (prevA : List JNum) (n : Neuron) : Except String Neuron :=
  let newWeights := mapIdx' (fun k w => jsub w (jmul (jmul lr d) (jget prevA k))) 0 n.getWeights
  let newBias := jsub n.getBias (jmul lr d)
  let r := n.setWeights newWeights
  match r.2 with
  | .error e => .error e
  | .ok _ => .ok (r.1.setBias newBias)

/-- The weight/bias-update loop over the neurons of one layer, with
`delta[j]` read by position `j`. -/
def updateLayer (lr : JNum) (delta prevA : List JNum) : Nat → List Neuron → Except String (List Neuron)
  | _, [] => .ok []
  | j, n :: rest =>
      match updateNeuron lr (jget delta j) prevA n with
      | .error e => .error e
      | .ok n' =>
          match updateLayer lr delta prevA (j + 1) rest with
          | .error e => .error e
          | .ok rest' => .ok (n' :: rest')

/-- The inner sum of the backward delta propagation (`NeuralNetwork.js`
lines 172-177): `sum += layer[j].getWeights()[i] * delta[j]` — the weight
is read at list position `i` of neuron `j`'s (already updated) weight
list, `undefined` (`NaN`) when neuron `j` has at most `i` connections. -/
def backSum (layer : List Neuron) (delta : List JNum) (i : Nat) : JNum :=
  foldlIdx' (fun s j n => jadd s (jmul (jget n.getWeights i) (jget delta j))) (some 0) 0 layer

/-- The backward delta propagation (`NeuralNetwork.js` lines 168-184):
`nextDelta[i] = sum * prevLayer[i].activation.df(zs[l-1][i])`. -/
def nextDeltas (layer : List Neuron) (delta : List JNum) (prevLayer : List Neuron)
    (prevZ : List JNum) : List JNum :=
  mapIdx' (fun i pn => jmul (backSum layer delta i) (pn.activation.df (jget prevZ i))) 0 prevLayer

/-- The backward loop `for (let l = this.layers.length - 1; l >= 0; l--)`
(`NeuralNetwork.js` lines 148-185): updates layer `l` in place, then (for
`l > 0`) computes the next delta from the *updated* layer `l` and the
still-original layer `l-1`, and descends. -/
def backLoop (lr : JNum) (acts zs : List (List JNum)) :
    Nat → List (List Neuron) → List JNum → Except String (List (List Neuron))
  | 0, layers, delta =>
      (match updateLayer lr delta (acts.getD 0 []) 0 (layers.getD 0 []) with
       | .error e => .error e
       | .ok updated => .ok (layers.set 0 updated))
  | l + 1, layers, delta =>
      match updateLayer lr delta (acts.getD (l + 1) []) 0 (layers.getD (l + 1) []) with
      | .error e => .error e
      | .ok updated =>
          let layers2 := layers.set (l + 1) updated
          backLoop lr acts zs l layers2
            (nextDeltas updated delta (layers2.getD l []) (zs.getD l []))

/-- `NeuralNetwork.backpropagate(input, target)` (`NeuralNetwork.js`
lines 115-186). -/
def NeuralNetwork.backpropagate (net : NeuralNetwork) (input target : List JNum) :
    Except String NeuralNetwork :=
  let r := forward net.layers input
  let zs := r.1
  let acts := r.2
  let aFinal := acts.getLastD []
  match outputDeltas net.layers.getLast? (zs.getLastD []) target 0 aFinal with
  | .error e => .error e
  | .ok delta =>
      if net.layers.isEmpty then .ok net
      else
        match backLoop net.learningRate acts zs (net.layers.length - 1) net.layers delta with
        | .error e => .error e
        | .ok layers' => .ok { net with layers := layers' }

/-- The parsed JSON of a persisted model (`NeuralNetwork.js` lines 221-263).
A field is `none` when absent from the JSON.  `epoch` is a number field
(possibly `NaN`); the array fields, when present, are arrays (a present
array is always truthy in JavaScript). -/
structure ModelJson where
  layerSizes : Option (List JVal)
  weights : Option (List (List (List JNum)))
  biases : Option (List (List JNum))
  epoch : Option JNum
  inputNames : Option (List String)
  outputNames : Option (List String)
  activations : Option (List (List (Option String)))

/-- Truthiness of the `epoch` field in `!json.epoch`: an absent field,
`NaN`, and `0` are all falsy. -/
def jsTruthyNum : Option JNum → Bool
  | none => false
  | some none => false
  | some (some q) => decide (q ≠ 0)

/-- The required-field check of `loadFromFile`
(`!json.layerSizes || !json.weights || !json.biases || !json.epoch`). -/
def ModelJson.valid (j : ModelJson) : Bool :=
  j.layerSizes.isSome && j.weights.isSome && j.biases.isSome && jsTruthyNum j.epoch

/-- One neuron of the load loop (`NeuralNetwork.js` lines 246-257):
resolves the activation name in the catalog (falling back to `sigmoidAct`,
the model parameter standing for `ActivationFunctions.sigmoid`), creates a
fresh dense neuron, then applies `setWeights(json.weights[l-1][i])` and
`setBias(json.biases[l-1][i])`.  Reading `[i]` of an absent row, or
calling `setWeights` on an `undefined` element, throws a `TypeError`;
a length mismatch propagates the `setWeights` error. -/
def loadNeuron (registry : List JAct) (sigmoidAct : JAct) (lr : JNum) (inSize : Nat)
    (layerActs : List (Option String)) (wRow : Option (List (List JNum)))
    (bRow : Option (List JNum)) (i : Nat) (rng : ℕ → ℚ) (ctr : ℕ) :
    Except String (Neuron × ℕ) :=
  let actName := layerActs.getD i none
  let activation :=
    match actName with
    | some s =>
        if s = "" then sigmoidAct
        else
          match registry.find? (fun a => a.aname = s) with
          | some found => found
          | none => sigmoidAct
    | none => sigmoidAct
  let r := Neuron.create inSize lr activation rng ctr
  match wRow.bind (fun row => row.get? i) with
  | none => .error "TypeError"
  | some ws =>
      let sw := r.1.setWeights ws
      match sw.2 with
      | .error e => .error e
      | .ok _ =>
          match bRow with
          | none => .error "TypeError"
          | some brow => .ok (sw.1.setBias (jget brow i), r.2)

/-- The `for (let i = 0; i < outSize; i++)` loop of the load. -/
def loadNeurons (registry : List JAct) (sigmoidAct : JAct) (lr : JNum) (inSize : Nat)
    (layerActs : List (Option String)) (wRow : Option (List (List JNum)))
    (bRow : Option (List JNum)) (rng : ℕ → ℚ) :
    Nat → Nat → ℕ → Except String (List Neuron × ℕ)
  | 0, _, ctr => .ok ([], ctr)
  | c + 1, i, ctr =>
      match loadNeuron registry sigmoidAct lr inSize layerActs wRow bRow i rng ctr with
      | .error e => .error e
      | .ok (n, ctr') =>
          match loadNeurons registry sigmoidAct lr inSize layerActs wRow bRow rng c (i + 1) ctr' with
          | .error e => .error e
          | .ok (rest, ctr'') => .ok (n :: rest, ctr'')

/-- The `for (let l = 1; l < json.layerSizes.length; l++)` loop of the load,
over `(layerSizes[l-1], layerSizes[l])` pairs; `lIdx = l - 1`. -/
def loadLayers (registry : List JAct) (sigmoidAct : JAct) (lr : JNum)
    (weightsArr : List (List (List JNum))) (biasesArr : List (List JNum))
    (actsArr : List (List (Option String))) (rng : ℕ → ℚ) :
    List (JVal × JVal) → Nat → ℕ → Except String (List (List Neuron) × ℕ)
  | [], _, ctr => .ok ([], ctr)
  | (prev, cur) :: rest, lIdx, ctr =>
      match loadNeurons registry sigmoidAct lr (jsLen prev) (actsArr.getD lIdx [])
          (weightsArr.get? lIdx) (biasesArr.get? lIdx) rng (jsIter cur) 0 ctr with
      | .error e => .error e
      | .ok (layer, ctr') =>
          match loadLayers registry sigmoidAct lr weightsArr biasesArr actsArr rng rest (lIdx + 1) ctr' with
          | .error e => .error e
          | .ok (ls, ctr'') => .ok (layer :: ls, ctr'')

/-- `NeuralNetwork.loadFromFile` (`NeuralNetwork.js` lines 221-263), after
the JSON has been fetched and parsed.  The method body never reads or
writes `this`; the first component of the result is the state of the
receiver after the call, which is therefore the receiver itself.  On the
success path a fresh network is constructed with the persisted
`layerSizes` (learning rate defaulting to 0.1, activation defaulting to
sigmoid), its `epoch` is set, its constructor-built layers are discarded,
and the layers are rebuilt from the persisted weights, biases and
activation names (`registry` stands for `Object.values(ActivationFunctions)`). -/
def NeuralNetwork.loadFromFile (self : NeuralNetwork) (json : ModelJson)
    (registry : List JAct) (sigmoidAct : JAct) (rng : ℕ → ℚ) (ctr : ℕ) :
    NeuralNetwork × Except String NeuralNetwork :=
  (self,
    if !json.valid then .error "Modèle invalide ou corrompu"
    else
      let ls := json.layerSizes.getD []
      match NeuralNetwork.create ls json.inputNames json.outputNames (some (1/10)) sigmoidAct rng ctr with
      | .error e => .error e
      | .ok (base, ctr') =>
          let net0 := { base with epoch := json.epoch.getD none, layers := [] }
          match loadLayers registry sigmoidAct net0.learningRate (json.weights.getD [])
              (json.biases.getD []) (json.activations.getD []) rng (ls.zip ls.tail) 0 ctr' with
          | .error e => .error e
          | .ok (newLayers, _) => .ok { net0 with layers := newLayers })

/-!
Derived functional descriptions of the backward pass.  These are proved
below to be exactly what `backpropagate` computes; the claims are then
stated against them.
-/

/-- The per-neuron effect of the update loop: every connection weight `k`
becomes `w - learningRate * d * prevA[k]` (computed from the pre-update
weight) and the bias becomes `bias - learningRate * d`. -/
def updateNeuronFn (lr d : JNum) (prevA : List JNum) (n : Neuron) : Neuron :=
  { n with
    connections := mapIdx' (fun k c =>
      { index := c.index,
        weight := jsub c.weight (jmul (jmul lr d) (jget prevA k)) }) 0 n.connections,
    bias := jsub n.bias (jmul lr d) }

/-- The layer-wise effect of the update loop. -/
def updateLayerFn (lr : JNum) (delta prevA : List JNum) (j : Nat) (layer : List Neuron) :
    List Neuron :=
  mapIdx' (fun j' n => updateNeuronFn lr (jget delta j') prevA n) j layer

/-- The total mirror of `backLoop` (which never throws). -/
def backFn (lr : JNum) (acts zs : List (List JNum)) :
    Nat → List (List Neuron) → List JNum → List (List Neuron)
  | 0, layers, delta =>
      layers.set 0 (updateLayerFn lr delta (acts.getD 0 []) 0 (layers.getD 0 []))
  | l + 1, layers, delta =>
      let updated := updateLayerFn lr delta (acts.getD (l + 1) []) 0 (layers.getD (l + 1) [])
      let layers2 := layers.set (l + 1) updated
      backFn lr acts zs l layers2
        (nextDeltas updated delta (layers2.getD l []) (zs.getD l []))

/-- A placeholder neuron for `List.getD` on neuron lists (never reached
under the bounds of the lemmas that use it). -/
def defNeuron : Neuron :=
  { connections := [], bias := none, learningRate := none,
    activation := { aname := "", f := fun _ => none, df := fun _ => none } }

/-- The total mirror of `outputDeltas` (valid when every index is in range
of the output layer). -/
def outputDeltasFn (oLayer : List Neuron) (oZ target : List JNum) (i : Nat)
    (aFinal : List JNum) : List JNum :=
  mapIdx' (fun i' a =>
    jmul (jsub a (jget target i')) ((oLayer.getD i' defNeuron).activation.df (jget oZ i')))
    i aFinal

/-- The delta vectors used by the backward loop, as a function of the
*original* layers: `deltaRel … l delta k` is the delta used when
processing layer `l - k`, starting from `delta` at layer `l`.  Each step
recomputes the updated layer `l - k` exactly as the loop leaves it. -/
def deltaRel (lr : JNum) (acts zs : List (List JNum)) (layers : List (List Neuron))
    (l : Nat) (delta : List JNum) : Nat → List JNum
  | 0 => delta
  | k + 1 =>
      let d := deltaRel lr acts zs layers l delta k
      let lcur := l - k
      nextDeltas (updateLayerFn lr d (acts.getD lcur []) 0 (layers.getD lcur [])) d
        (layers.getD (lcur - 1) []) (zs.getD (lcur - 1) [])

/-- The `activations` list retained by the forward pass of `backpropagate`
(the input vector followed by each layer's activations). -/
def NeuralNetwork.fwdActs (net : NeuralNetwork) (input : List JNum) : List (List JNum) :=
  (forward net.layers input).2

/-- The `zs` list retained by the forward pass of `backpropagate`. -/
def NeuralNetwork.fwdZs (net : NeuralNetwork) (input : List JNum) : List (List JNum) :=
  (forward net.layers input).1

/-- The output-layer delta vector computed by `backpropagate`. -/
def NeuralNetwork.outDelta (net : NeuralNetwork) (input target : List JNum) : List JNum :=
  outputDeltasFn (net.layers.getLastD []) ((net.fwdZs input).getLastD []) target 0
    ((net.fwdActs input).getLastD [])

/-- The delta vector `backpropagate` uses when it updates layer `p`. -/
def NeuralNetwork.deltaUsed (net : NeuralNetwork) (input target : List JNum) (p : Nat) :
    List JNum :=
  deltaRel net.learningRate (net.fwdActs input) (net.fwdZs input) net.layers
    (net.layers.length - 1) (net.outDelta input target) (net.layers.length - 1 - p)

/-! Helper lemmas. -/

theorem jadd_none_left (y : JNum) : jadd none y = none := by cases y <;> rfl

theorem jadd_none_right (x : JNum) : jadd x none = none := by cases x <;> rfl

theorem jmul_none_left (y : JNum) : jmul none y = none := by cases y <;> rfl

theorem mapIdx'_length {α β : Type} (F : Nat → α → β) :
    ∀ (l : List α) (i : Nat), (mapIdx' F i l).length = l.length := by
  intro l
  induction l with
  | nil => intro i; rfl
  | cons a as ih => intro i; simp [mapIdx', ih]

theorem mapIdx'_getD {α β : Type} (F : Nat → α → β) :
    ∀ (l : List α) (i j : Nat) (d : β) (dα : α), j < l.length →
      (mapIdx' F i l).getD j d = F (i + j) (l.getD j dα) := by
  intro l
  induction l with
  | nil => intro i j d dα h; simp at h
  | cons a as ih =>
      intro i j d dα h
      cases j with
      | zero => rfl
      | succ j' =>
          have hj : j' < as.length := by simpa using h
          have := ih (i + 1) j' d dα hj
          simpa [mapIdx', List.getD, Nat.add_assoc, Nat.add_comm 1 j'] using this

theorem getD_set_ne {α : Type} :
    ∀ (l : List α) (i j : Nat) (a d : α), i ≠ j → (l.set i a).getD j d = l.getD j d := by
  intro l
  induction l with
  | nil => intro i j a d _; rfl
  | cons x xs ih =>
      intro i j a d hij
      cases i with
      | zero =>
          cases j with
          | zero => exact absurd rfl hij
          | succ j' => rfl
      | succ i' =>
          cases j with
          | zero => rfl
          | succ j' =>
              have : i' ≠ j' := fun h => hij (by rw [h])
              simpa [List.set, List.getD] using ih i' j' a d this

theorem getD_set_self {α : Type} :
    ∀ (l : List α) (i : Nat) (a d : α), i < l.length → (l.set i a).getD i d = a := by
  intro l
  induction l with
  | nil => intro i a d h; simp at h
  | cons x xs ih =>
      intro i a d h
      cases i with
      | zero => rfl
      | succ i' =>
          have : i' < xs.length := by simpa using h
          simpa [List.set, List.getD] using ih i' a d this

theorem get?_eq_some_getD {α : Type} :
    ∀ (l : List α) (i : Nat) (d : α), i < l.length → l.get? i = some (l.getD i d) := by
  intro l
  induction l with
  | nil => intro i d h; simp at h
  | cons x xs ih =>
      intro i d h
      cases i with
      | zero => rfl
      | succ i' => exact ih i' d (by simpa using h)

theorem getLastD_irrel {α : Type} (l : List α) (d d' : α) (h : l ≠ []) :
    l.getLastD d = l.getLastD d' := by
  cases l with
  | nil => exact absurd rfl h
  | cons x xs => simp only [List.getLastD_cons]

theorem getLastD_cons_of_ne {α : Type} (l : List α) (a d : α) (h : l ≠ []) :
    (a :: l).getLastD d = l.getLastD d := by
  rw [List.getLastD_cons]
  exact getLastD_irrel l a d h

theorem getLast?_eq_some_getLastD {α : Type} (l : List α) (d : α) (h : l ≠ []) :
    l.getLast? = some (l.getLastD d) := by
  cases l with
  | nil => exact absurd rfl h
  | cons x xs =>
      rw [List.getLast?_eq_getLast (x :: xs) (by simp), List.getLast_eq_getLastD,
        List.getLastD_cons]

theorem zipWith_mapIdx_weights (G : Nat → JNum → JNum) :
    ∀ (conns : List Conn) (i : Nat),
      List.zipWith (fun c w => { c with weight := w })
        conns (mapIdx' G i (conns.map (fun c => c.weight)))
      = mapIdx' (fun k c => { index := c.index, weight := G k c.weight }) i conns := by
  intro conns
  induction conns with
  | nil => intro i; rfl
  | cons c cs ih => intro i; simp [mapIdx', List.zipWith, ih]

theorem updateNeuron_eq (lr d : JNum) (prevA : List JNum) (n : Neuron) :
    updateNeuron lr d prevA n = .ok (updateNeuronFn lr d prevA n) := by
  have hlen : (mapIdx' (fun k w => jsub w (jmul (jmul lr d) (jget prevA k))) 0 n.getWeights).length
      = n.connections.length := by
    rw [mapIdx'_length]; simp [Neuron.getWeights]
  simp only [Neuron.getWeights] at hlen
  unfold updateNeuron Neuron.setWeights
  simp [Neuron.getWeights, hlen, updateNeuronFn, Neuron.setBias, Neuron.getBias,
    zipWith_mapIdx_weights]

theorem updateLayer_eq (lr : JNum) (delta prevA : List JNum) :
    ∀ (layer : List Neuron) (j : Nat),
      updateLayer lr delta prevA j layer = .ok (updateLayerFn lr delta prevA j layer) := by
  intro layer
  induction layer with
  | nil => intro j; rfl
  | cons n rest ih =>
      intro j
      simp [updateLayer, updateLayerFn, mapIdx', updateNeuron_eq, ih j.succ]

theorem backLoop_eq (lr : JNum) (acts zs : List (List JNum)) :
    ∀ (l : Nat) (layers : List (List Neuron)) (delta : List JNum),
      backLoop lr acts zs l layers delta = .ok (backFn lr acts zs l layers delta) := by
  intro l
  induction l with
  | zero => intro layers delta; simp [backLoop, backFn, updateLayer_eq]
  | succ l' ih => intro layers delta; simp [backLoop, backFn, updateLayer_eq, ih]

theorem backFn_length (lr : JNum) (acts zs : List (List JNum)) :
    ∀ (l : Nat) (layers : List (List Neuron)) (delta : List JNum),
      (backFn lr acts zs l layers delta).length = layers.length := by
  intro l
  induction l with
  | zero => intro layers delta; simp [backFn]
  | succ l' ih => intro layers delta; simp [backFn, ih]

theorem backFn_getD_gt (lr : JNum) (acts zs : List (List JNum)) :
    ∀ (l : Nat) (layers : List (List Neuron)) (delta : List JNum) (p : Nat), l < p →
      (backFn lr acts zs l layers delta).getD p [] = layers.getD p [] := by
  intro l
  induction l with
  | zero =>
      intro layers delta p hp
      exact getD_set_ne layers 0 p _ [] (by omega)
  | succ l' ih =>
      intro layers delta p hp
      rw [backFn]
      rw [ih _ _ p (by omega)]
      exact getD_set_ne layers (l' + 1) p _ [] (by omega)

theorem deltaRel_shift (lr : JNum) (acts zs : List (List JNum))
    (layers2 layers : List (List Neuron)) (l : Nat) (delta nd : List JNum)
    (hagree : ∀ j, j ≤ l → layers2.getD j [] = layers.getD j [])
    (hnd : nd = deltaRel lr acts zs layers (l + 1) delta 1) :
    ∀ k, k ≤ l →
      deltaRel lr acts zs layers2 l nd k = deltaRel lr acts zs layers (l + 1) delta (k + 1) := by
  intro k
  induction k with
  | zero => intro _; exact hnd
  | succ k' ih =>
      intro hk
      have hk' : k' ≤ l := by omega
      rw [deltaRel, deltaRel, ih hk']
      have h1 : l - k' = l + 1 - (k' + 1) := by omega
      have h2 : layers2.getD (l - k') [] = layers.getD (l - k') [] := hagree _ (by omega)
      have h3 : layers2.getD (l - k' - 1) [] = layers.getD (l - k' - 1) [] := hagree _ (by omega)
      rw [h2, h3, h1]

theorem backFn_getD_le (lr : JNum) (acts zs : List (List JNum)) :
    ∀ (l : Nat) (layers : List (List Neuron)) (delta : List JNum) (p : Nat),
      l < layers.length → p ≤ l →
      (backFn lr acts zs l layers delta).getD p []
        = updateLayerFn lr (deltaRel lr acts zs layers l delta (l - p))
            (acts.getD p []) 0 (layers.getD p []) := by
  intro l
  induction l with
  | zero =>
      intro layers delta p hl hp
      have hp0 : p = 0 := by omega
      subst hp0
      rw [backFn, getD_set_self layers 0 _ [] hl]
      rfl
  | succ l' ih =>
      intro layers delta p hl hp
      rw [backFn]
      have hset : ∀ j, j ≤ l' →
          (layers.set (l' + 1)
            (updateLayerFn lr delta (acts.getD (l' + 1) []) 0 (layers.getD (l' + 1) []))).getD j []
          = layers.getD j [] := by
        intro j hj
        exact getD_set_ne layers (l' + 1) j _ [] (by omega)
      by_cases hpl : p = l' + 1
      · subst hpl
        rw [backFn_getD_gt lr acts zs l' _ _ (l' + 1) (by omega)]
        rw [getD_set_self layers (l' + 1) _ [] hl]
        simp [deltaRel]
      · have hple : p ≤ l' := by omega
        rw [ih _ _ p (by simpa using Nat.lt_of_succ_lt hl) hple]
        have hnd :
            nextDeltas (updateLayerFn lr delta (acts.getD (l' + 1) []) 0 (layers.getD (l' + 1) []))
              delta
              ((layers.set (l' + 1)
                (updateLayerFn lr delta (acts.getD (l' + 1) []) 0 (layers.getD (l' + 1) []))).getD l' [])
              (zs.getD l' [])
            = deltaRel lr acts zs layers (l' + 1) delta 1 := by
          rw [hset l' (by omega)]
          simp [deltaRel]
        rw [deltaRel_shift lr acts zs _ layers l' delta _ hset hnd (l' - p) (by omega)]
        rw [hset p hple]
        have : l' - p + 1 = l' + 1 - p := by omega
        rw [this]

theorem outputDeltas_eq (oLayer : List Neuron) (oZ target : List JNum) :
    ∀ (aFinal : List JNum) (i : Nat), i + aFinal.length ≤ oLayer.length →
      outputDeltas (some oLayer) oZ target i aFinal
        = .ok (outputDeltasFn oLayer oZ target i aFinal) := by
  intro aFinal
  induction aFinal with
  | nil => intro i _; rfl
  | cons a as ih =>
      intro i h
      have hi : i < oLayer.length := by simp at h; omega
      rw [outputDeltas]
      rw [get?_eq_some_getD oLayer i defNeuron hi]
      rw [ih (i + 1) (by simp at h ⊢; omega)]
      rfl

theorem forward_acts_ne :
    ∀ (layers : List (List Neuron)) (a : List JNum), (forward layers a).2 ≠ [] := by
  intro layers a
  cases layers with
  | nil => simp [forward]
  | cons layer rest => simp [forward]

theorem forward_aFinal_len :
    ∀ (layers : List (List Neuron)) (a : List JNum), layers ≠ [] →
      ((forward layers a).2.getLastD []).length = (layers.getLastD []).length := by
  intro layers
  induction layers with
  | nil => intro a h; exact absurd rfl h
  | cons layer rest ih =>
      intro a _
      cases rest with
      | nil => simp [forward, layerZA, List.getLastD_cons]
      | cons r rs =>
          rw [forward]
          have hne : (forward (r :: rs) (layerZA layer a).2).2 ≠ [] := forward_acts_ne _ _
          rw [getLastD_cons_of_ne _ _ [] hne]
          rw [ih _ (by simp)]
          simp only [List.getLastD_cons]

theorem backpropagate_eq (net : NeuralNetwork) (input target : List JNum)
    (h : net.layers ≠ []) :
    net.backpropagate input target
      = .ok { net with
          layers := backFn net.learningRate (net.fwdActs input) (net.fwdZs input)
            (net.layers.length - 1) net.layers (net.outDelta input target) } := by
  have hgl := getLast?_eq_some_getLastD net.layers [] h
  have hlen : (0 : Nat) + ((forward net.layers input).2.getLastD []).length
      ≤ (net.layers.getLastD []).length := by
    rw [forward_aFinal_len net.layers input h]; omega
  have hod := outputDeltas_eq (net.layers.getLastD [])
    ((forward net.layers input).1.getLastD []) target
    ((forward net.layers input).2.getLastD []) 0 hlen
  have hne : net.layers.isEmpty = false := by
    cases hl : net.layers with
    | nil => exact absurd hl h
    | cons x xs => rfl
  simp only [NeuralNetwork.backpropagate, hgl, hod, hne, Bool.false_eq_true, if_false,
    backLoop_eq, NeuralNetwork.fwdActs, NeuralNetwork.fwdZs, NeuralNetwork.outDelta]

/-- The specification-side linear sum `Σ weights[i+k] * xs[k]` over exact
rationals (the sum the specification ascribes to `Perceptron.predict`,
using only the first `weights.length` input entries). -/
def dotFrom (ws : List ℚ) : Nat → List ℚ → ℚ
  | _, [] => 0
  | i, x :: xs => ws.getD i 0 * x + dotFrom ws (i + 1) xs

/-- A `Perceptron` with rational weights and bias and the threshold enabled. -/
def mkPerceptron (ws : List ℚ) (b : ℚ) (lr th : JNum) : Perceptron :=
  { weights := ws.map some, bias := some b, learningRate := lr,
    activationThreshold := th, disableThreshold := false }

theorem jget_map_some (ws : List ℚ) :
    ∀ (i : Nat), i < ws.length → jget (ws.map some) i = some (ws.getD i 0) := by
  induction ws with
  | nil => intro i h; simp at h
  | cons w ws ih =>
      intro i h
      cases i with
      | zero => rfl
      | succ i' => exact ih i' (by simpa using h)

theorem jget_none_of_ge (l : List JNum) (i : Nat) (h : l.length ≤ i) : jget l i = none := by
  unfold jget
  rw [List.getD_eq_getElem?_getD, List.getElem?_eq_none h]
  rfl

theorem rawSum_fold_some (ws : List ℚ) :
    ∀ (xs : List ℚ) (i : Nat) (acc : ℚ), i + xs.length ≤ ws.length →
      foldlIdx' (fun s i' x => jadd s (jmul (jget (ws.map some) i') x))
          (some acc) i (xs.map some)
        = some (acc + dotFrom ws i xs) := by
  intro xs
  induction xs with
  | nil => intro i acc _; simp [foldlIdx', dotFrom]
  | cons x xs ih =>
      intro i acc h
      have hi : i < ws.length := by simp at h; omega
      simp only [List.map, foldlIdx', dotFrom]
      rw [jget_map_some ws i hi]
      show foldlIdx' _ (jadd (some acc) (some (ws.getD i 0 * x))) (i + 1) (xs.map some) = _
      rw [show jadd (some acc) (some (ws.getD i 0 * x)) = some (acc + ws.getD i 0 * x) from rfl]
      rw [ih (i + 1) (acc + ws.getD i 0 * x) (by simp at h ⊢; omega)]
      ring_nf

theorem rawSum_fold_nan (ws : List ℚ) :
    ∀ (xs : List JNum) (i : Nat),
      foldlIdx' (fun s i' x => jadd s (jmul (jget (ws.map some) i') x)) none i xs = none := by
  intro xs
  induction xs with
  | nil => intro i; rfl
  | cons x xs ih =>
      intro i
      simp only [foldlIdx']
      rw [jadd_none_left]
      exact ih (i + 1)

theorem rawSum_fold_long (ws : List ℚ) :
    ∀ (xs : List ℚ) (i : Nat) (acc : JNum), xs ≠ [] → ws.length < i + xs.length →
      foldlIdx' (fun s i' x => jadd s (jmul (jget (ws.map some) i') x))
          acc i (xs.map some) = none := by
  intro xs
  induction xs with
  | nil => intro i acc hne _; exact absurd rfl hne
  | cons x xs ih =>
      intro i acc _ h
      by_cases hge : ws.length ≤ i
      · simp only [List.map, foldlIdx']
        rw [jget_none_of_ge (ws.map some) i (by simpa using hge), jmul_none_left,
          jadd_none_right]
        exact rawSum_fold_nan ws (xs.map some) (i + 1)
      · have hxs : xs ≠ [] := by
          intro hnil
          subst hnil
          simp at h
          omega
        simp only [List.map, foldlIdx']
        exact ih (i + 1) _ hxs (by simp at h ⊢; omega)

theorem trainWeights_length (lr e : JNum) :
    ∀ (xs ws : List JNum), xs.length ≤ ws.length →
      (trainWeights lr e ws xs).length = ws.length := by
  intro xs
  induction xs with
  | nil => intro ws _; cases ws <;> rfl
  | cons x xs ih =>
      intro ws h
      cases ws with
      | nil => simp at h
      | cons w ws' => simpa [trainWeights] using ih ws' (by simpa using h)

theorem trainWeights_getD_lt (lr e : JNum) :
    ∀ (xs ws : List JNum) (i : Nat), i < xs.length → xs.length ≤ ws.length →
      jget (trainWeights lr e ws xs) i
        = jadd (jget ws i) (jmul (jmul lr e) (jget xs i)) := by
  intro xs
  induction xs with
  | nil => intro ws i h _; simp at h
  | cons x xs ih =>
      intro ws i h hle
      cases ws with
      | nil => simp at hle
      | cons w ws' =>
          cases i with
          | zero => rfl
          | succ i' =>
              show jget (trainWeights lr e ws' xs) i' = _
              exact ih ws' i' (by simpa using h) (by simpa using hle)

theorem trainWeights_getD_ge (lr e : JNum) :
    ∀ (xs ws : List JNum) (i : Nat), xs.length ≤ i →
      jget (trainWeights lr e ws xs) i = jget ws i := by
  intro xs
  induction xs with
  | nil => intro ws i _; cases ws <;> rfl
  | cons x xs ih =>
      intro ws i h
      cases i with
      | zero => simp at h
      | succ i' =>
          cases ws with
          | nil =>
              show jget (trainWeights lr e [] xs) i' = jget [] i'
              rw [ih [] i' (by simpa using h)]
          | cons w ws' =>
              show jget (trainWeights lr e ws' xs) i' = jget ws' i'
              exact ih ws' i' (by simpa using h)

/-- C6 is refuted at this perceptron: one weight, unit learning rate. -/
def P6 : Perceptron :=
  { weights := [some 1], bias := some 0, learningRate := some 1,
    activationThreshold := some 0, disableThreshold := false }

/-- C6 (counterexample): training `P6` (one weight) on the two-entry input
`[1, 1]` does more than add `learningRate*error*input[i]` to each weight:
it extends the weight vector with a `NaN` entry (the update loop runs over
`input.length`), so the claim's "changes nothing else" fails. -/
theorem C6_counterexample :
    (P6.train [some 1, some 1] (some 0)).weights = [some 1, none]
      ∧ (P6.train [some 1, some 1] (some 0)).weights.length ≠ P6.weights.length := by
  constructor
  · norm_num [P6, Perceptron.train, Perceptron.predict, Perceptron.activate,
      Perceptron.rawSum, ActivationFunctions.binary, foldlIdx', trainWeights,
      jadd, jmul, jsub, jget]
  · decide

/-- C6 (amended): for inputs no longer than the weight vector,
`Perceptron.train` computes `error = target − predict(input)` once, adds
`learningRate*error*input[i]` to weight `i` for each `i < input.length`,
adds `learningRate*error` to the bias, and changes nothing else (weights
beyond the input length, their count, and all other fields are
untouched).  For longer inputs the update loop extends the weight vector
(see the counterexample). -/
theorem C6_train_delta_rule (p : Perceptron) (input : List JNum) (target : JNum)
    (h : input.length ≤ p.weights.length) :
    (p.train input target).weights.length = p.weights.length
    ∧ (∀ i, i < input.length →
        jget (p.train input target).weights i
          = jadd (jget p.weights i)
              (jmul (jmul p.learningRate (jsub target (p.predict input))) (jget input i)))
    ∧ (∀ i, input.length ≤ i →
        jget (p.train input target).weights i = jget p.weights i)
    ∧ (p.train input target).bias
        = jadd p.bias (jmul p.learningRate (jsub target (p.predict input)))
    ∧ (p.train input target).learningRate = p.learningRate
    ∧ (p.train input target).activationThreshold = p.activationThreshold
    ∧ (p.train input target).disableThreshold = p.disableThreshold := by
  refine ⟨?_, ?_, ?_, rfl, rfl, rfl, rfl⟩
  · exact trainWeights_length _ _ input p.weights h
  · intro i hi
    exact trainWeights_getD_lt _ _ input p.weights i hi h
  · intro i hi
    exact trainWeights_getD_ge _ _ input p.weights i hi

/-- C6 (witness): the amended theorem applied to `P6` and the one-entry
input `[2]`. -/
theorem C6_train_delta_rule_witness :
    ([some 2] : List JNum).length ≤ P6.weights.length
      ∧ ((P6.train [some 2] (some 1)).weights.length = P6.weights.length
        ∧ (∀ i, i < ([some 2] : List JNum).length →
            jget (P6.train [some 2] (some 1)).weights i
              = jadd (jget P6.weights i)
                  (jmul (jmul P6.learningRate (jsub (some 1) (P6.predict [some 2])))
                    (jget [some 2] i)))
        ∧ (∀ i, ([some 2] : List JNum).length ≤ i →
            jget (P6.train [some 2] (some 1)).weights i = jget P6.weights i)
        ∧ (P6.train [some 2] (some 1)).bias
            = jadd P6.bias (jmul P6.learningRate (jsub (some 1) (P6.predict [some 2])))
        ∧ (P6.train [some 2] (some 1)).learningRate = P6.learningRate
        ∧ (P6.train [some 2] (some 1)).activationThreshold = P6.activationThreshold
        ∧ (P6.train [some 2] (some 1)).disableThreshold = P6.disableThreshold) :=
  ⟨by decide, C6_train_delta_rule P6 [some 2] (some 1) (by decide)⟩

/-- C5 is refuted at this perceptron: a single weight 1, bias 0,
threshold enabled. -/
def P5 : Perceptron := mkPerceptron [1] 0 (some 1) (some 0)

/-- C5 (counterexample): on the two-entry input `[1, 5]` — longer than the
one-entry weight vector — the claim predicts output 1 (the sum over the
first `weights.length` entries is `0 + 1*1 = 1 ≥ 0.5`), but the sum loop
of `Perceptron.predict` runs over `input.length`, reads `weights[1]` as
`undefined`, turns the sum into `NaN`, and the binary step maps `NaN` to
0.  The extra entry changed the result. -/
theorem C5_counterexample :
    ¬ (Perceptron.predict P5 [some 1, some 5] = some 1
        ↔ (1 : ℚ)/2 ≤ 0 + dotFrom [1] 0 [1]) := by
  have hval : Perceptron.predict P5 [some 1, some 5] = some 0 := by
    norm_num [P5, mkPerceptron, Perceptron.predict, Perceptron.activate, Perceptron.rawSum,
      foldlIdx', jget, jadd, jmul, ActivationFunctions.binary]
  intro hiff
  have h2 : (1 : ℚ)/2 ≤ 0 + dotFrom [1] 0 [1] := by norm_num [dotFrom]
  have h1 := hiff.mpr h2
  rw [hval] at h1
  exact absurd (Option.some.inj h1) (by norm_num)

/-- C5 (amended): with the threshold enabled and rational data, for an
input of length *equal* to the weight vector `Perceptron.predict` returns
1 iff `bias + Σ weights[i]*input[i] ≥ 0.5` and 0 otherwise; but for a
*strictly longer* input the out-of-range weight read makes the sum `NaN`
and the binary step returns 0 regardless, so the extra entries can change
the result (the source loops over `input.length`, not `weights.length`). -/
theorem C5_predict_threshold (ws xs : List ℚ) (b : ℚ) (lr th : JNum) :
    (xs.length = ws.length →
      ((mkPerceptron ws b lr th).predict (xs.map some) = some 1
          ↔ (1 : ℚ)/2 ≤ b + dotFrom ws 0 xs)
        ∧ (¬ (1 : ℚ)/2 ≤ b + dotFrom ws 0 xs →
            (mkPerceptron ws b lr th).predict (xs.map some) = some 0))
    ∧ (ws.length < xs.length →
        (mkPerceptron ws b lr th).predict (xs.map some) = some 0) := by
  constructor
  · intro hlen
    have hsum : (mkPerceptron ws b lr th).rawSum (xs.map some)
        = some (b + dotFrom ws 0 xs) := by
      show foldlIdx' _ (some b) 0 (xs.map some) = _
      exact rawSum_fold_some ws xs 0 b (by omega)
    have hpred : (mkPerceptron ws b lr th).predict (xs.map some)
        = if (1 : ℚ)/2 ≤ b + dotFrom ws 0 xs then some 1 else some 0 := by
      rw [Perceptron.predict, hsum]
      rfl
    constructor
    · rw [hpred]
      by_cases hc : (1 : ℚ)/2 ≤ b + dotFrom ws 0 xs
      · simp [hc]
      · simp only [if_neg hc]
        constructor
        · intro h0
          exact absurd (Option.some.inj h0) (by norm_num)
        · intro h0
          exact absurd h0 hc
    · intro hc
      rw [hpred, if_neg hc]
  · intro hlong
    have hxs : xs ≠ [] := by
      intro hnil
      subst hnil
      simp at hlong
    have hsum : (mkPerceptron ws b lr th).rawSum (xs.map some) = none := by
      show foldlIdx' _ (some b) 0 (xs.map some) = _
      exact rawSum_fold_long ws xs 0 (some b) hxs (by omega)
    rw [Perceptron.predict, hsum]
    rfl

/-- C5 (witness): the amended theorem applied to the single-weight
perceptron `mkPerceptron [1] 0` on the matching-length input `[1]`. -/
theorem C5_predict_threshold_witness :
    ([(1 : ℚ)] : List ℚ).length = ([(1 : ℚ)] : List ℚ).length
      ∧ ((mkPerceptron [1] 0 (some 1) (some 0)).predict ([(1 : ℚ)].map some) = some 1
          ↔ (1 : ℚ)/2 ≤ 0 + dotFrom [1] 0 [1]) :=
  ⟨rfl, ((C5_predict_threshold [1] [1] 0 (some 1) (some 0)).1 rfl).1⟩

/-- C7: `Neuron.setWeights` with a mismatched-length array fails (throwing
before any mutation, so the receiver — first component — is unchanged and
a subsequent `getWeights()` returns the old values), and with a matching
length succeeds, overwriting connection weights positionally in
connection-list order while keeping each connection's source index. -/
theorem C7_setWeights_guard (n : Neuron) (ws : List JNum) :
    (ws.length ≠ n.connections.length →
      (n.setWeights ws).1 = n
        ∧ (n.setWeights ws).2
            = .error "Le nombre de poids ne correspond pas au nombre de connexions."
        ∧ (n.setWeights ws).1.getWeights = n.getWeights)
    ∧ (ws.length = n.connections.length →
      (n.setWeights ws).2 = .ok ()
        ∧ (n.setWeights ws).1.connections
            = List.zipWith (fun c w => { index := c.index, weight := w }) n.connections ws
        ∧ (n.setWeights ws).1.bias = n.bias) := by
  constructor
  · intro h
    simp [Neuron.setWeights, h]
  · intro h
    simp [Neuron.setWeights, h]

/-- The neuron used to witness C7: one connection from source index 3. -/
def N7 : Neuron :=
  { connections := [{ index := 3, weight := some 9 }], bias := some 4,
    learningRate := some 1,
    activation := { aname := "identity", f := fun x => x, df := fun _ => some 1 } }

/-- C7 (witness): the guard theorem applied to `N7` with a too-short list
(failure leaves the weights readable unchanged) and with a matching list
(positional overwrite keeps the source index). -/
theorem C7_setWeights_guard_witness :
    (([] : List JNum).length ≠ N7.connections.length
      ∧ (N7.setWeights []).1.getWeights = N7.getWeights)
    ∧ (([some 5] : List JNum).length = N7.connections.length
      ∧ (N7.setWeights [some 5]).1.connections
          = List.zipWith (fun c w => { index := c.index, weight := w })
              N7.connections [some 5]) :=
  ⟨⟨by decide, ((C7_setWeights_guard N7 []).1 (by decide)).2.2⟩,
   ⟨by decide, ((C7_setWeights_guard N7 [some 5]).2 (by decide)).2.1⟩⟩

/-- A throw-free test of an `Except` result. -/
def exceptOk {ε α : Type} : Except ε α → Bool
  | .ok _ => true
  | .error _ => false

/-- An identity-like activation object used by concrete test networks
(legal: a neuron stores an arbitrary `{f, df}` object). -/
def actId : JAct :=
  { aname := "identity", f := fun x => x, df := fun _ => some 1 }

/-- C8 (counterexample): the claim requires construction to fail when some
entry of `layerSizes` is not a positive *integer*, but the source only
checks `typeof size !== 'number' || size <= 0`; constructing with
`layerSizes = [2.5, 1]` succeeds. -/
theorem C8_counterexample :
    exceptOk (NeuralNetwork.create [JVal.num (5/2), JVal.num 1] none none (some (1/10))
      actId (fun _ => 0) 0) = true := by
  have h1 : ¬ ([JVal.num (5/2), JVal.num 1].length < 2) := by decide
  have h2 : ¬ ([JVal.num (5/2), JVal.num 1].any badSize = true) := by
    norm_num [badSize, List.any]
  simp only [NeuralNetwork.create, h1, h2, if_neg, if_false]
  rfl

/-- C8 (amended): `NeuralNetwork` construction fails with a validation
error exactly when `layerSizes` has fewer than two entries or some entry
is a non-number or a number `≤ 0`.  Integrality is *not* checked
(non-integer positive sizes are accepted, see the counterexample), and
`NaN` also passes the `size <= 0` test. -/
theorem C8_create_validation (layerSizes : List JVal)
    (inputNames outputNames : Option (List String)) (lr : JNum) (act : JAct)
    (rng : ℕ → ℚ) (ctr : ℕ) :
    (∃ e, NeuralNetwork.create layerSizes inputNames outputNames lr act rng ctr = .error e)
      ↔ (layerSizes.length < 2 ∨ layerSizes.any badSize = true) := by
  by_cases h1 : layerSizes.length < 2
  · simp [NeuralNetwork.create, h1]
  · by_cases h2 : layerSizes.any badSize = true
    · simp [NeuralNetwork.create, h1, h2]
    · simp [NeuralNetwork.create, h1, h2]

/-- C9: `loadFromFile` fails with the invalid/corrupt-model error whenever
any of `layerSizes`, `weights`, `biases`, `epoch` is absent; it never
mutates the network instance it is invoked on (the post-call receiver
state — first component — is the receiver); and its result is independent
of the receiver: on success it is a freshly constructed instance. -/
theorem C9_loadFromFile_fresh (self self' : NeuralNetwork) (json : ModelJson)
    (registry : List JAct) (sigmoidAct : JAct) (rng : ℕ → ℚ) (ctr : ℕ) :
    (NeuralNetwork.loadFromFile self json registry sigmoidAct rng ctr).1 = self
    ∧ ((json.layerSizes = none ∨ json.weights = none ∨ json.biases = none
          ∨ json.epoch = none) →
        (NeuralNetwork.loadFromFile self json registry sigmoidAct rng ctr).2
          = .error "Modèle invalide ou corrompu")
    ∧ (NeuralNetwork.loadFromFile self json registry sigmoidAct rng ctr).2
        = (NeuralNetwork.loadFromFile self' json registry sigmoidAct rng ctr).2 := by
  refine ⟨rfl, ?_, rfl⟩
  intro h
  rcases h with h | h | h | h <;>
    simp [NeuralNetwork.loadFromFile, ModelJson.valid, h, jsTruthyNum]

/-- A small receiver network for the load witnesses. -/
def NET0 : NeuralNetwork :=
  { layers := [], learningRate := some 1, activation := actId, layerSizes := [],
    inputNames := [], outputNames := [], epoch := none }

/-- A persisted model missing `layerSizes` (the other fields present). -/
def J9 : ModelJson :=
  { layerSizes := none, weights := some [[[some 1]]], biases := some [[some 0]],
    epoch := some (some 5), inputNames := none, outputNames := none,
    activations := none }

/-- C9 (witness): loading `J9` (missing `layerSizes`) leaves the receiver
untouched and reports the invalid/corrupt-model error. -/
theorem C9_loadFromFile_fresh_witness :
    (NeuralNetwork.loadFromFile NET0 J9 [] actId (fun _ => 0) 0).1 = NET0
      ∧ (NeuralNetwork.loadFromFile NET0 J9 [] actId (fun _ => 0) 0).2
          = .error "Modèle invalide ou corrompu" :=
  ⟨(C9_loadFromFile_fresh NET0 NET0 J9 [] actId (fun _ => 0) 0).1,
   (C9_loadFromFile_fresh NET0 NET0 J9 [] actId (fun _ => 0) 0).2.1 (Or.inl rfl)⟩

/-- C10: the required-field check `!json.epoch` treats the number `0` as
absent, so a persisted model whose `epoch` field is present but equal to
`0` is rejected as invalid/corrupt. -/
theorem C10_epoch_zero_rejected (self : NeuralNetwork) (json : ModelJson)
    (registry : List JAct) (sigmoidAct : JAct) (rng : ℕ → ℚ) (ctr : ℕ)
    (h : json.epoch = some (some 0)) :
    (NeuralNetwork.loadFromFile self json registry sigmoidAct rng ctr).2
      = .error "Modèle invalide ou corrompu" := by
  simp [NeuralNetwork.loadFromFile, ModelJson.valid, h, jsTruthyNum]

/-- A fully-populated persisted model of a `[2, 1]` network saved after
zero training epochs. -/
def J10 : ModelJson :=
  { layerSizes := some [JVal.num 2, JVal.num 1],
    weights := some [[[some 1, some 1]]], biases := some [[some 0]],
    epoch := some (some 0), inputNames := some ["a", "b"],
    outputNames := some ["y"], activations := some [[some "identity"]] }

/-- C10 (witness): loading the fully-populated `J10` fails because its
`epoch` is `0`. -/
theorem C10_epoch_zero_rejected_witness :
    J10.epoch = some (some 0)
      ∧ (NeuralNetwork.loadFromFile NET0 J10 [actId] actId (fun _ => 0) 0).2
          = .error "Modèle invalide ou corrompu" :=
  ⟨rfl, C10_epoch_zero_rejected NET0 J10 [actId] actId (fun _ => 0) 0 rfl⟩

/-- C1: for every network (with at least one layer — always true of a
constructed network) and every input/target, `backpropagate` computes the
output deltas `delta[j] = (a_final[j] − target[j]) * df(z_final[j])` with
each output neuron's own activation derivative, and updates, for every
layer `p`, each neuron `j`'s `k`-th weight to
`weight − learningRate * delta[j] * prevActivation[k]` and its bias to
`bias − learningRate * delta[j]`, computing the new weights from the
pre-update weights (`net.layers`, not `net'.layers`) and the activations
retained from the forward pass. -/
theorem C1_backprop_updates (net : NeuralNetwork) (input target : List JNum)
    (h : net.layers ≠ []) :
    ∃ net', net.backpropagate input target = .ok net'
      ∧ (∀ j, j < ((net.fwdActs input).getLastD []).length →
          jget (net.outDelta input target) j
            = jmul (jsub (jget ((net.fwdActs input).getLastD []) j) (jget target j))
                (((net.layers.getLastD []).getD j defNeuron).activation.df
                  (jget ((net.fwdZs input).getLastD []) j)))
      ∧ (∀ p, p < net.layers.length →
          net'.layers.getD p []
            = mapIdx' (fun j n =>
                { n with
                  connections := mapIdx' (fun k c =>
                    { index := c.index,
                      weight := jsub c.weight
                        (jmul (jmul net.learningRate (jget (net.deltaUsed input target p) j))
                          (jget ((net.fwdActs input).getD p []) k)) }) 0 n.connections,
                  bias := jsub n.bias
                    (jmul net.learningRate (jget (net.deltaUsed input target p) j)) })
              0 (net.layers.getD p [])) := by
  refine ⟨_, backpropagate_eq net input target h, ?_, ?_⟩
  · intro j hj
    show (outputDeltasFn (net.layers.getLastD []) ((net.fwdZs input).getLastD []) target 0
        ((net.fwdActs input).getLastD [])).getD j none = _
    unfold outputDeltasFn
    rw [mapIdx'_getD _ _ 0 j none none hj]
    rw [Nat.zero_add]
    rfl
  · intro p hp
    have hpos : 0 < net.layers.length := List.length_pos.mpr h
    show (backFn net.learningRate (net.fwdActs input) (net.fwdZs input)
        (net.layers.length - 1) net.layers (net.outDelta input target)).getD p [] = _
    rw [backFn_getD_le _ _ _ _ _ _ p (by omega) (by omega)]
    rfl

/-- The single neuron of the witness network for C1. -/
def N1 : Neuron :=
  { connections := [{ index := 0, weight := some 2 }], bias := some 1,
    learningRate := some (1/10), activation := actId }

/-- The single-layer witness network for C1. -/
def NET1 : NeuralNetwork :=
  { layers := [[N1]], learningRate := some 1, activation := actId,
    layerSizes := [JVal.num 1, JVal.num 1], inputNames := [], outputNames := [],
    epoch := none }

/-- C1 (witness): the theorem applied to the concrete one-layer network
`NET1` with input `[1]` and target `[0]`, specialised to its only layer. -/
theorem C1_backprop_updates_witness :
    NET1.layers ≠ []
      ∧ ∃ net', NET1.backpropagate [some 1] [some 0] = .ok net'
        ∧ net'.layers.getD 0 []
            = mapIdx' (fun j n =>
                { n with
                  connections := mapIdx' (fun k c =>
                    { index := c.index,
                      weight := jsub c.weight
                        (jmul (jmul NET1.learningRate
                            (jget (NET1.deltaUsed [some 1] [some 0] 0) j))
                          (jget ((NET1.fwdActs [some 1]).getD 0 []) k)) }) 0 n.connections,
                  bias := jsub n.bias
                    (jmul NET1.learningRate (jget (NET1.deltaUsed [some 1] [some 0] 0) j)) })
              0 (NET1.layers.getD 0 []) := by
  have hne : NET1.layers ≠ [] := by simp [NET1]
  obtain ⟨n', h1, _, h3⟩ := C1_backprop_updates NET1 [some 1] [some 0] hne
  exact ⟨hne, n', h1, h3 0 (by simp [NET1])⟩

/-- C4: in `backpropagate`, the weight/bias updates of layer `p+1` are
applied before the deltas of layer `p` are computed: the delta used for
layer `p` is the backward sum taken over the *post-update* weights of
layer `p+1` as stored in the result network `net'` (not the weights used
in the forward pass), combined with the previous layer's forward-pass
`z` values. -/
theorem C4_delta_from_updated_weights (net : NeuralNetwork) (input target : List JNum)
    (h : net.layers ≠ []) (p : Nat) (hp : p + 1 < net.layers.length) :
    ∃ net', net.backpropagate input target = .ok net'
      ∧ net.deltaUsed input target p
          = nextDeltas (net'.layers.getD (p + 1) []) (net.deltaUsed input target (p + 1))
              (net.layers.getD p []) ((net.fwdZs input).getD p []) := by
  refine ⟨_, backpropagate_eq net input target h, ?_⟩
  show _ = nextDeltas ((backFn net.learningRate (net.fwdActs input) (net.fwdZs input)
      (net.layers.length - 1) net.layers (net.outDelta input target)).getD (p + 1) []) _ _ _
  rw [backFn_getD_le _ _ _ _ _ _ (p + 1) (by omega) (by omega)]
  show deltaRel net.learningRate (net.fwdActs input) (net.fwdZs input) net.layers
      (net.layers.length - 1) (net.outDelta input target) (net.layers.length - 1 - p) = _
  have hk : net.layers.length - 1 - p = (net.layers.length - 1 - (p + 1)) + 1 := by omega
  rw [hk, deltaRel]
  have hcur : net.layers.length - 1 - (net.layers.length - 1 - (p + 1)) = p + 1 := by omega
  rw [hcur]
  have hprev : p + 1 - 1 = p := by omega
  rw [hprev]
  rfl

/-- Layer 0 of the two-layer witness network: two dense neurons. -/
def N40 : Neuron :=
  { connections := [{ index := 0, weight := some 1 }, { index := 1, weight := some 0 }],
    bias := some 0, learningRate := some (1/10), activation := actId }

/-- Second neuron of layer 0 of the two-layer witness network. -/
def N41 : Neuron :=
  { connections := [{ index := 0, weight := some 0 }, { index := 1, weight := some 1 }],
    bias := some 0, learningRate := some (1/10), activation := actId }

/-- The output neuron of the two-layer witness network. -/
def N42 : Neuron :=
  { connections := [{ index := 0, weight := some 3 }, { index := 1, weight := some 4 }],
    bias := some 0, learningRate := some (1/10), activation := actId }

/-- A dense two-layer network used to witness C4. -/
def NET4 : NeuralNetwork :=
  { layers := [[N40, N41], [N42]], learningRate := some 1, activation := actId,
    layerSizes := [JVal.num 2, JVal.num 2, JVal.num 1], inputNames := [],
    outputNames := [], epoch := none }

/-- C4 (witness): the theorem applied to the concrete two-layer network
`NET4` at `p = 0`. -/
theorem C4_delta_from_updated_weights_witness :
    NET4.layers ≠ [] ∧ 0 + 1 < NET4.layers.length
      ∧ ∃ net', NET4.backpropagate [some 1, some 2] [some 13] = .ok net'
        ∧ NET4.deltaUsed [some 1, some 2] [some 13] 0
            = nextDeltas (net'.layers.getD 1 [])
                (NET4.deltaUsed [some 1, some 2] [some 13] 1)
                (NET4.layers.getD 0 []) ((NET4.fwdZs [some 1, some 2]).getD 0 []) := by
  have hne : NET4.layers ≠ [] := by simp [NET4]
  have hp : 0 + 1 < NET4.layers.length := by simp [NET4]
  obtain ⟨n', h1, h2⟩ := C4_delta_from_updated_weights NET4 [some 1, some 2] [some 13] hne 0 hp
  exact ⟨hne, hp, n', h1, h2⟩

/-- The weight the *specification* prescribes for the backward sum: the
weight of neuron `n`'s connection whose source index equals `i`
(0 when no such connection exists). -/
def weightBySource (n : Neuron) (i : Nat) : JNum :=
  match n.connections.find? (fun c => c.index = i) with
  | some c => c.weight
  | none => some 0

/-- The backward delta propagation as worded by the specification (claim
C2): `nextDelta[i] = (Σ over j: weight[j→i] * delta[j]) * df(prevZ[i])`
with `weight[j→i]` selected by connection source index, not list
position.  Stated for comparison with the source's `nextDeltas`. -/
def nextDeltasSpec (layer : List Neuron) (delta : List JNum) (prevLayer : List Neuron)
    (prevZ : List JNum) : List JNum :=
  mapIdx' (fun i pn =>
    jmul (foldlIdx' (fun s j n => jadd s (jmul (weightBySource n i) (jget delta j)))
        (some 0) 0 layer)
      (pn.activation.df (jget prevZ i))) 0 prevLayer

/-- The hidden neuron of the sparse-wiring network for C2. -/
def N2a : Neuron :=
  { connections := [{ index := 0, weight := some 1 }], bias := some 0,
    learningRate := some (1/10), activation := actId }

/-- The output neuron of the sparse-wiring network: its single connection
has source index 1, so its weight sits at list position 0 while its
source index is 1. -/
def M2 : Neuron :=
  { connections := [{ index := 1, weight := some 2 }], bias := some 0,
    learningRate := some (1/10), activation := actId }

/-- A two-layer sparse network whose output neuron's connection list
position differs from its source index. -/
def NET2 : NeuralNetwork :=
  { layers := [[N2a], [M2]], learningRate := some 1, activation := actId,
    layerSizes := [JVal.num 1, JVal.num 1, JVal.num 1], inputNames := [],
    outputNames := [], epoch := none }


set_option maxHeartbeats 1000000 in
/-- C2 (counterexample): on the sparse network `NET2` (input `[1]`,
target `[3]`) the output neuron's only connection has source index 1,
stored at list position 0.  The delta `backpropagate` propagates to
neuron 0 of the previous layer is `-3`: it reads the updated output
weight at *list position* 0 (`3`) times the output delta (`-1`), and the
layer-0 bias is accordingly updated to `0 − 1·(−3) = 3`.  The
source-index selection asserted by the claim finds no connection with
source index 0 and yields delta `0` instead.  `some (-3) ≠ some 0`
refutes the claim. -/
theorem C2_counterexample :
    jget (NET2.deltaUsed [some 1] [some 3] 0) 0 = some (-3)
      ∧ jget (nextDeltasSpec
            (updateLayerFn NET2.learningRate (NET2.deltaUsed [some 1] [some 3] 1)
              ((NET2.fwdActs [some 1]).getD 1 []) 0 (NET2.layers.getD 1 []))
            (NET2.deltaUsed [some 1] [some 3] 1)
            (NET2.layers.getD 0 []) ((NET2.fwdZs [some 1]).getD 0 [])) 0 = some 0
      ∧ (NET2.backpropagate [some 1] [some 3]).toOption.map
            (fun m => ((m.layers.getD 0 []).getD 0 defNeuron).bias) = some (some 3)
      ∧ (some (-3 : ℚ) : JNum) ≠ some (0 : ℚ) := by
  refine ⟨?_, ?_, ?_, by norm_num⟩
  · norm_num [NeuralNetwork.deltaUsed, NeuralNetwork.outDelta, NeuralNetwork.fwdActs,
      NeuralNetwork.fwdZs, NET2, N2a, M2, actId, deltaRel, nextDeltas, backSum,
      updateLayerFn, updateNeuronFn, outputDeltasFn, forward, layerZA, neuronSum,
      Neuron.activate, Neuron.getWeights, Neuron.getBias, mapIdx', foldlIdx', jget,
      jadd, jmul, jsub, List.getD, List.getLastD]
  · norm_num [NeuralNetwork.deltaUsed, NeuralNetwork.outDelta, NeuralNetwork.fwdActs,
      NeuralNetwork.fwdZs, NET2, N2a, M2, actId, deltaRel, nextDeltasSpec, weightBySource,
      updateLayerFn, updateNeuronFn, outputDeltasFn, forward, layerZA, neuronSum,
      Neuron.activate, Neuron.getWeights, Neuron.getBias, mapIdx', foldlIdx', List.find?,
      jget, jadd, jmul, jsub, List.getD, List.getLastD]
  · rw [backpropagate_eq NET2 [some 1] [some 3] (by simp [NET2])]
    norm_num [NeuralNetwork.outDelta, NeuralNetwork.fwdActs, NeuralNetwork.fwdZs,
      NET2, N2a, M2, actId, backFn, deltaRel, nextDeltas, backSum, updateLayerFn,
      updateNeuronFn, outputDeltasFn, forward, layerZA, neuronSum, Neuron.activate,
      Neuron.getWeights, Neuron.getBias, mapIdx', foldlIdx', jget, jadd, jmul, jsub,
      List.getD, List.getLastD, List.set, Except.toOption]

/-- C2 (amended): the delta `backpropagate` propagates to neuron `i` of
layer `p` is `(Σ over neurons j of layer p+1: w[j][i] * delta[j]) * df(prevZ[i])`
where `w[j][i]` is the weight at *list position* `i` of neuron `j`'s
already-updated weight list (`backSum` reads `getWeights()[i]`), not the
weight of the connection whose source index is `i`.  The two coincide
only for default dense wiring; under sparse or reordered wiring the
source behaves positionally (see the counterexample). -/
theorem C2_delta_by_position (net : NeuralNetwork) (input target : List JNum)
    (h : net.layers ≠ []) (p : Nat) (hp : p + 1 < net.layers.length)
    (i : Nat) (hi : i < (net.layers.getD p []).length) :
    ∃ net', net.backpropagate input target = .ok net'
      ∧ jget (net.deltaUsed input target p) i
          = jmul (backSum (net'.layers.getD (p + 1) [])
                (net.deltaUsed input target (p + 1)) i)
              (((net.layers.getD p []).getD i defNeuron).activation.df
                (jget ((net.fwdZs input).getD p []) i)) := by
  refine ⟨_, backpropagate_eq net input target h, ?_⟩
  show jget (net.deltaUsed input target p) i
      = jmul (backSum ((backFn net.learningRate (net.fwdActs input) (net.fwdZs input)
            (net.layers.length - 1) net.layers (net.outDelta input target)).getD (p + 1) []) _ i) _
  rw [backFn_getD_le _ _ _ _ _ _ (p + 1) (by omega) (by omega)]
  show jget (deltaRel net.learningRate (net.fwdActs input) (net.fwdZs input) net.layers
      (net.layers.length - 1) (net.outDelta input target) (net.layers.length - 1 - p)) i = _
  have hk : net.layers.length - 1 - p = (net.layers.length - 1 - (p + 1)) + 1 := by omega
  rw [hk, deltaRel]
  have hcur : net.layers.length - 1 - (net.layers.length - 1 - (p + 1)) = p + 1 := by omega
  rw [hcur]
  have hprev : p + 1 - 1 = p := by omega
  rw [hprev]
  show (nextDeltas _ _ (net.layers.getD p []) _).getD i none = _
  unfold nextDeltas
  rw [mapIdx'_getD _ _ 0 i none defNeuron hi]
  rw [Nat.zero_add]
  rfl

/-- C2 (witness): the amended theorem applied to the dense two-layer
network `NET4` at layer 0, neuron 0. -/
theorem C2_delta_by_position_witness :
    NET4.layers ≠ [] ∧ 0 + 1 < NET4.layers.length
      ∧ 0 < (NET4.layers.getD 0 []).length
      ∧ ∃ net', NET4.backpropagate [some 1, some 2] [some 13] = .ok net'
        ∧ jget (NET4.deltaUsed [some 1, some 2] [some 13] 0) 0
            = jmul (backSum (net'.layers.getD 1 [])
                  (NET4.deltaUsed [some 1, some 2] [some 13] 1) 0)
                (((NET4.layers.getD 0 []).getD 0 defNeuron).activation.df
                  (jget ((NET4.fwdZs [some 1, some 2]).getD 0 []) 0)) := by
  have hne : NET4.layers ≠ [] := by simp [NET4]
  have hp : 0 + 1 < NET4.layers.length := by simp [NET4]
  have hi : 0 < (NET4.layers.getD 0 []).length := by simp [NET4]
  obtain ⟨n', h1, h2⟩ :=
    C2_delta_by_position NET4 [some 1, some 2] [some 13] hne 0 hp 0 hi
  exact ⟨hne, hp, hi, n', h1, h2⟩

theorem predictSum_error (inputs : List JNum) :
    ∀ (conns : List Conn) (s : JNum), (∃ c ∈ conns, inputs.length ≤ c.index) →
      ∃ e, predictSum inputs conns s = .error e := by
  intro conns
  induction conns with
  | nil => intro s h; simp at h
  | cons c0 cs ih =>
      intro s h
      obtain ⟨c, hc, hlen⟩ := h
      by_cases h0 : inputs.length ≤ c0.index
      · exact ⟨_, by rw [predictSum, if_pos h0]⟩
      · have hcs : c ∈ cs := by
          rcases List.mem_cons.mp hc with h1 | h1
          · subst h1; exact absurd hlen h0
          · exact h1
        rw [predictSum, if_neg h0]
        exact ih _ ⟨c, hcs, hlen⟩

theorem predict_error_of_short (n : Neuron) (inputs : List JNum)
    (h : ∃ c ∈ n.connections, inputs.length ≤ c.index) :
    ∃ e, n.predict inputs = .error e := by
  obtain ⟨e, he⟩ := predictSum_error inputs n.connections n.bias h
  exact ⟨e, by simp [Neuron.predict, he]⟩

theorem predictNeurons_error (inputs : List JNum) :
    ∀ (layer : List Neuron),
      (∃ n ∈ layer, ∃ c ∈ n.connections, inputs.length ≤ c.index) →
      ∃ e, predictNeurons inputs layer = .error e := by
  intro layer
  induction layer with
  | nil => intro h; simp at h
  | cons n0 rest ih =>
      intro h
      obtain ⟨n, hn, hcc⟩ := h
      cases hpn : n0.predict inputs with
      | error e => exact ⟨e, by simp [predictNeurons, hpn]⟩
      | ok y =>
          have hnrest : n ∈ rest := by
            rcases List.mem_cons.mp hn with h1 | h1
            · subst h1
              obtain ⟨e, he⟩ := predict_error_of_short n inputs hcc
              rw [hpn] at he
              cases he
            · exact h1
          obtain ⟨e, he⟩ := ih ⟨n, hnrest, hcc⟩
          exact ⟨e, by simp [predictNeurons, hpn, he]⟩

/-- C3 (counterexample): calling `backpropagate` on the one-layer network
`NET1` (whose neuron requires input index 0) with the empty input does
*not* fail with an index-range error: the forward pass reads the missing
entry as `undefined`, every quantity becomes `NaN`, the call returns
normally, and the neuron's weight is mutated from `2` to `NaN` — so
weights are corrupted, not protected. -/
theorem C3_counterexample :
    (NET1.backpropagate [] [some 0]).toOption.map
        (fun m => ((m.layers.getD 0 []).getD 0 defNeuron).getWeights) = some [none]
      ∧ ((NET1.layers.getD 0 []).getD 0 defNeuron).getWeights = [some 2] := by
  constructor
  · rw [backpropagate_eq NET1 [] [some 0] (by simp [NET1])]
    norm_num [NeuralNetwork.outDelta, NeuralNetwork.fwdActs, NeuralNetwork.fwdZs,
      NET1, N1, actId, backFn, deltaRel, outputDeltasFn, forward, layerZA, neuronSum,
      Neuron.activate, Neuron.getWeights, Neuron.getBias, updateLayerFn, updateNeuronFn,
      mapIdx', foldlIdx', jget, jadd, jmul, jsub, List.getD, List.getLastD, List.set,
      Except.toOption]
  · rfl

/-- C3 (amended): with an input vector shorter than required by some
neuron of the first layer, `NeuralNetwork.predict` fails with an
index-range error (thrown by `Neuron.predict` before any state is
touched), but `NeuralNetwork.backpropagate` does *not* fail: its forward
pass performs no range check (out-of-range reads yield `undefined`/`NaN`),
and the call completes, applying `NaN`-contaminated weight and bias
updates (see the counterexample). -/
theorem C3_short_input (net : NeuralNetwork) (input target : List JNum) (n : Neuron)
    (hn : n ∈ net.layers.getD 0 []) (c : Conn) (hc : c ∈ n.connections)
    (hlen : input.length ≤ c.index) :
    (∃ e, net.predict input = .error e)
      ∧ (∃ net', net.backpropagate input target = .ok net') := by
  have hne : net.layers ≠ [] := by
    intro h0
    rw [h0] at hn
    simp at hn
  constructor
  · cases hl : net.layers with
    | nil => exact absurd hl hne
    | cons L0 rest =>
        have hn0 : n ∈ L0 := by rw [hl] at hn; simpa using hn
        obtain ⟨e, he⟩ := predictNeurons_error input L0 ⟨n, hn0, c, hc, hlen⟩
        exact ⟨e, by simp [NeuralNetwork.predict, hl, predictLayers, he]⟩
  · exact ⟨_, backpropagate_eq net input target hne⟩

/-- C3 (witness): the amended theorem applied to `NET1` and the empty
input (its neuron's connection requires index 0). -/
theorem C3_short_input_witness :
    (∃ e, NET1.predict [] = .error e)
      ∧ (∃ net', NET1.backpropagate [] [some 0] = .ok net') :=
  C3_short_input NET1 [] [some 0] N1 (List.Mem.head _)
    { index := 0, weight := some 2 } (List.Mem.head _) (by decide)
